import Mathlib

/-!
Verification of the ObjectTracker repository (contour detection and
multi-object Kalman tracking) against its natural-language specification.

The development shallowly embeds the two core source files,
src/contour_finder.cpp and src/multi_object_tracker.cpp, as executable
Lean definitions over exact rational arithmetic.  C++ double / float
arithmetic is idealised as arithmetic in the rationals; a C-style cast
from a floating value to int (truncation toward zero) is modelled
explicitly by cTrunc.  Euclidean norms (cv::norm) are handled through
squared distances: for a nonnegative threshold t and a distance d we
have d > t iff d * d > t * t, and d < t iff 0 < t and d * d < t * t,
which normGtB / normLtB encode (including the degenerate sign cases),
so no square roots are needed.

Components of the repository whose sources are not present under src/
(kalman_tracker, the Hungarian assignment solver, disjoint_set, and
OpenCV library routines) are modelled from the specification; each such
definition carries a doc comment starting with "Modelled from the spec".
-/

set_option allowUnsafeReducibility true
attribute [local semireducible] Rat.mul Rat.add Rat.sub Rat.inv

namespace ObjectTracker

/-- A 2D point with rational coordinates (models cv::Point2f). -/
abbrev PointQ := ℚ × ℚ

/-- A 2D point with integer coordinates (models cv::Point, used in contours). -/
abbrev IPoint := ℤ × ℤ

/-- A contour is an ordered list of integer points (models std::vector of cv::Point). -/
abbrev Contour := List IPoint

/-- An axis-aligned integer rectangle (models cv::Rect). -/
structure Rect where
  x : ℤ
  y : ℤ
  width : ℤ
  height : ℤ
  deriving DecidableEq, Repr, Inhabited

/-- Containment test of a rational point in an integer rectangle,
following cv::Rect::contains: the left and top edges are inclusive and
the right and bottom edges exclusive. -/
def Rect.containsB (r : Rect) (p : PointQ) : Bool :=
  decide ((r.x : ℚ) ≤ p.1) && decide (p.1 < (r.x : ℚ) + (r.width : ℚ)) &&
  decide ((r.y : ℚ) ≤ p.2) && decide (p.2 < (r.y : ℚ) + (r.height : ℚ))

/-- Squared Euclidean distance between two rational points. -/
def distSq (p q : PointQ) : ℚ :=
  (p.1 - q.1) * (p.1 - q.1) + (p.2 - q.2) * (p.2 - q.2)

/-- Comparison "Euclidean distance > t" expressed on the squared distance:
for d ≥ 0, d > t holds iff t < 0 or t * t < d * d. -/
def normGtB (dSq t : ℚ) : Bool :=
  decide (t < 0) || decide (t * t < dSq)

/-- Comparison "Euclidean distance < t" expressed on the squared distance:
for d ≥ 0, d < t holds iff 0 < t and d * d < t * t. -/
def normLtB (dSq t : ℚ) : Bool :=
  decide (0 < t) && decide (dSq < t * t)

/-- C-style truncation toward zero of a rational number, as performed by a
C++ cast from double or float to int. -/
def cTrunc (q : ℚ) : ℤ :=
  if q < 0 then -(⌊-q⌋) else ⌊q⌋

/-- The list of directed edges of a closed polygon: each point paired with
its cyclic successor. -/
def polygonEdges (ps : Contour) : List (IPoint × IPoint) :=
  ps.zip (ps.rotate 1)

/-- Twice the signed area of the closed polygon described by a contour
(the shoelace sum), an integer for integer vertices. -/
def shoelaceSum (ps : Contour) : ℤ :=
  (polygonEdges ps).foldl (fun s e => s + (e.1.1 * e.2.2 - e.2.1 * e.1.2)) 0

/-- Contour area as computed by cv::contourArea: the absolute value of the
shoelace sum divided by two. -/
def contourAreaQ (ps : Contour) : ℚ :=
  ((shoelaceSum ps).natAbs : ℚ) / 2

/-- Modelled from the spec: the spatial moments m00, m10, m01 of a contour
as computed by the cv::moments library routine on a polygon, via the
standard line-integral (Green) formulas, normalised so that m00 is
nonnegative.  Only the ratios m10 / m00 and m01 / m00 and the vanishing
of m00 matter to the claims. -/
def contourMomentsQ (ps : Contour) : ℚ × ℚ × ℚ :=
  let s00 : ℤ := shoelaceSum ps
  let s10 : ℤ := (polygonEdges ps).foldl
    (fun s e => s + (e.1.1 * e.2.2 - e.2.1 * e.1.2) * (e.1.1 + e.2.1)) 0
  let s01 : ℤ := (polygonEdges ps).foldl
    (fun s e => s + (e.1.1 * e.2.2 - e.2.1 * e.1.2) * (e.1.2 + e.2.2)) 0
  if s00 < 0 then (-(s00 : ℚ) / 2, -(s10 : ℚ) / 6, -(s01 : ℚ) / 6)
  else ((s00 : ℚ) / 2, (s10 : ℚ) / 6, (s01 : ℚ) / 6)

/-- The m00 moment of a contour (its signed polygon area normalised to be
nonnegative); m00 = 0 exactly for degenerate (zero-area) contours. -/
def m00Q (ps : Contour) : ℚ := (contourMomentsQ ps).1

/-- Centroid of a contour from its image moments, (m10 / m00, m01 / m00),
exactly the formula in ContourFinder::getCentersAndBoundingBoxes.  In the
rationals division by a vanishing m00 yields the junk value 0 (in the C++
double arithmetic it yields a NaN); no claim depends on that value. -/
def centroidQ (ps : Contour) : PointQ :=
  let m := contourMomentsQ ps
  (m.2.1 / m.1, m.2.2 / m.1)

/-- The integer-truncated running maximum of the contour areas, exactly as
produced by the std::accumulate call in ContourFinder::filterOutBadContours:
the initial value 0 is an int literal, so the accumulator type is int and
the double returned by the max lambda is truncated back to int at every
step. -/
def maxAreaInt (areas : List ℚ) : ℤ :=
  areas.foldl (fun acc a => cTrunc (max (acc : ℚ) a)) 0

/-- The size-filter threshold: the float size fraction times the (already
integer-truncated) running maximum area, truncated to int by the
declaration int threshold in the source. -/
def sizeThresholdInt (frac : ℚ) (areas : List ℚ) : ℤ :=
  cTrunc (frac * (maxAreaInt areas : ℚ))

/-- ContourFinder::filterOutBadContours: computes every contour's area,
forms the truncated threshold, and removes (std::remove_if) every contour
whose area is less than or equal to the threshold. -/
def filterOutBadContours (frac : ℚ) (contours : List Contour) : List Contour :=
  let areas := contours.map contourAreaQ
  let threshold := sizeThresholdInt frac areas
  contours.filter (fun c => decide ((threshold : ℚ) < contourAreaQ c))

/-- ContourFinder::getCentersAndBoundingBoxes: for every contour, push the
centroid computed from the moments and the bounding box of a polygonal
approximation of the contour.  The cv::approxPolyDP / cv::boundingRect
library composition is an external OpenCV routine, taken here as the
function parameter approxBox.  There is no skip of any contour: the output
lists have one entry per input contour. -/
def getCentersAndBoundingBoxes (approxBox : Contour → Rect)
    (contours : List Contour) : List PointQ × List Rect :=
  (contours.map centroidQ, contours.map approxBox)

/-- Modelled from the spec: disjoint_set.hpp is not under src/.  The
union-find structure is modelled semantically as a representative map on
indices: Union(a, b) redirects the whole class of a to the representative
of b, and FindSet is application of the map. -/
def ufUnion (r : ℕ → ℕ) (a b : ℕ) : ℕ → ℕ :=
  fun k => if r k = r a then r b else r k

/-- The representative map produced by the double loop in
ContourFinder::mergeContours: for every ordered pair of distinct indices
whose gate fires, the two classes are united. -/
def buildUF (gate : ℕ → ℕ → Bool) (n : ℕ) : ℕ → ℕ :=
  (List.range n).foldl
    (fun r i => (List.range n).foldl
      (fun r' j => if i ≠ j ∧ gate i j then ufUnion r' i j else r') r)
    id

/-- The merge gate of ContourFinder::mergeContours for indices i and j:
the distance between the two mass centers must be below the merge
fraction times the largest bounding-box side of the pair. -/
def mergeGate (mergeThr : ℚ) (massCenters : List PointQ)
    (boundingBoxes : List Rect) (i j : ℕ) : Bool :=
  let bi := boundingBoxes.getD i default
  let bj := boundingBoxes.getD j default
  let dim : ℤ := max (max bi.width bi.height) (max bj.width bj.height)
  normLtB (distSq (massCenters.getD i (0, 0)) (massCenters.getD j (0, 0)))
    (mergeThr * (dim : ℚ))

/-- The classes of the representative map r on indices below n, each paired
with its representative key: for every distinct value of r (the keys of the
unordered_map itemsForSet in the source, whose iteration order is
unspecified and fixed here by List.dedup), the ascending list of the
indices mapped to it (ascending because the source fills itemsForSet by a
loop over increasing i). -/
def classesOf (r : ℕ → ℕ) (n : ℕ) : List (ℕ × List ℕ) :=
  (((List.range n).map r).dedup).map
    (fun v => (v, (List.range n).filter (fun k => decide (r k = v))))

/-- The contour a single equivalence class contributes to the merged set,
exactly as in the source: a class of size one contributes the contour
indexed by the map key (the representative), any larger class contributes
the concatenation of its members' point sequences in ascending index
order. -/
def classContour (contours : List Contour) (cls : ℕ × List ℕ) : Contour :=
  if cls.2.length = 1 then contours.getD cls.1 []
  else (cls.2.map (fun k => contours.getD k [])).flatten

/-- ContourFinder::mergeContours: unions every gated pair of contour
indices in a disjoint-set structure, groups indices by representative, and
replaces the contour list by one contour per class. -/
def mergeContours (mergeThr : ℚ) (contours : List Contour)
    (massCenters : List PointQ) (boundingBoxes : List Rect) : List Contour :=
  let n := contours.length
  let r := buildUF (mergeGate mergeThr massCenters boundingBoxes) n
  (classesOf r n).map (classContour contours)

/-- The contour post-processing pipeline of ContourFinder::findContours
after extraction (lines 88-97 of the source): size-filter the contours,
compute centers and boxes, merge nearby contours using that pre-merge
geometry, then recompute centers and boxes on the merged set.  Returns the
merged contours with the recomputed centers and boxes. -/
def processContours (frac mergeThr : ℚ) (approxBox : Contour → Rect)
    (contours : List Contour) : List Contour × List PointQ × List Rect :=
  let cs₁ := filterOutBadContours frac contours
  let cb₁ := getCentersAndBoundingBoxes approxBox cs₁
  let cs₂ := mergeContours mergeThr cs₁ cb₁.1 cb₁.2
  let cb₂ := getCentersAndBoundingBoxes approxBox cs₂
  (cs₂, cb₂.1, cb₂.2)

/-- The internal state estimate of a motion filter: predicted position and
velocity in 2D. -/
structure EstState where
  pos : PointQ
  vel : PointQ
  deriving DecidableEq, Repr, Inhabited

/-- Modelled from the spec: the type of a Kalman measurement update.  The
file kalman_tracker.cpp is not under src/, so the numeric measurement
update (Kalman gain, covariance) is abstracted as a function parameter
taking the current estimate and an observed centroid; every theorem below
holds for an arbitrary measurement update. -/
abbrev MeasUpdate := EstState → PointQ → EstState

/-- Modelled from the spec: a per-track Kalman filter record, from the
specification of the motion filter (kalman_tracker.cpp is not under
src/): a persistent id, the state estimate, the lifetime and
missed-frames counters, and the configured motion parameters dt and
acceleration-noise magnitude.  The fields predictCalls and gotUpdateCalls
are instrumentation counting how many times predict() and got_update()
have been invoked on the filter; no operation ever reads them. -/
structure KalmanTracker where
  id : ℕ
  est : EstState
  lifetime : ℕ
  missedFrames : ℕ
  dt : ℚ
  accelNoise : ℚ
  predictCalls : ℕ
  gotUpdateCalls : ℕ
  deriving DecidableEq, Repr, Inhabited

/-- Modelled from the spec: the default dt of the one-argument
KalmanTracker constructor (the spec's configuration table gives dt the
default 1.0).  No claim depends on the numeric value, only on both birth
paths being compared against the same constants. -/
def kalmanDefaultDt : ℚ := 1

/-- Modelled from the spec: the default acceleration-noise magnitude of
the one-argument KalmanTracker constructor (an implementation default per
the spec).  No claim depends on the numeric value. -/
def kalmanDefaultAccelNoise : ℚ := 1 / 2

/-- Modelled from the spec: the KalmanTracker constructor seeds the state
at the given centroid with zero velocity and zeroes both counters. -/
def mkKalmanTracker (id : ℕ) (c : PointQ) (dt accelNoise : ℚ) : KalmanTracker :=
  { id := id, est := { pos := c, vel := (0, 0) }, lifetime := 0,
    missedFrames := 0, dt := dt, accelNoise := accelNoise,
    predictCalls := 0, gotUpdateCalls := 0 }

/-- Modelled from the spec: predict() advances the state one step of the
constant-velocity transition (position moves by dt times velocity) and is
the operation that ages the filter by one frame. -/
def predictOp (t : KalmanTracker) : KalmanTracker :=
  { t with est := { pos := (t.est.pos.1 + t.dt * t.est.vel.1,
                           t.est.pos.2 + t.dt * t.est.vel.2),
                    vel := t.est.vel },
           lifetime := t.lifetime + 1,
           predictCalls := t.predictCalls + 1 }

/-- Modelled from the spec: latestPrediction() returns the last predicted
position without mutating the filter. -/
def latestPrediction (t : KalmanTracker) : PointQ := t.est.pos

/-- Modelled from the spec: correct(observation) applies the measurement
update with the given centroid; it touches only the state estimate. -/
def correctObs (mu : MeasUpdate) (t : KalmanTracker) (z : PointQ) : KalmanTracker :=
  { t with est := mu t.est z }

/-- Modelled from the spec: the zero-argument correct() applies a
self-correction using the last prediction as a synthetic observation. -/
def correctSelf (mu : MeasUpdate) (t : KalmanTracker) : KalmanTracker :=
  { t with est := mu t.est t.est.pos }

/-- Modelled from the spec: gotUpdate() resets the missed-frames counter
to zero; it does not touch the state estimate. -/
def gotUpdateOp (t : KalmanTracker) : KalmanTracker :=
  { t with missedFrames := 0, gotUpdateCalls := t.gotUpdateCalls + 1 }

/-- Modelled from the spec: noUpdateThisFrame() increments the
missed-frames counter. -/
def noUpdateOp (t : KalmanTracker) : KalmanTracker :=
  { t with missedFrames := t.missedFrames + 1 }

/-- The configuration of a MultiObjectTracker, from its constructor
parameters.  The frame size is split into its height and width; the
lifetime and missed-frames thresholds are the (nonnegative) long
parameters. -/
structure Config where
  frameHeight : ℤ
  frameWidth : ℤ
  lifetimeThreshold : ℕ
  distanceThreshold : ℚ
  missedFramesThreshold : ℕ
  dt : ℚ
  accelNoise : ℚ
  deriving DecidableEq, Repr, Inhabited

/-- The mutable state of a MultiObjectTracker: the pool of Kalman filters
and the next fresh track id (the spec's monotonically increasing id
counter, modelled as part of the tracker state). -/
structure MOTState where
  pool : List KalmanTracker
  nextId : ℕ
  deriving DecidableEq, Repr, Inhabited

/-- The result of one MultiObjectTracker::update call: the new filter
pool, the advanced id counter, and the emitted output predictions. -/
structure UpdateResult where
  pool : List KalmanTracker
  nextId : ℕ
  outputPredictions : List PointQ
  deriving DecidableEq, Repr, Inhabited

/-- The frame dimension used by the distance gate,
0.5 * (frame height + frame width). -/
def frameDimension (cfg : Config) : ℚ :=
  (1 / 2) * ((cfg.frameHeight : ℚ) + (cfg.frameWidth : ℚ))

/-- The gate threshold: the configured distance threshold times the frame
dimension. -/
def gateThreshold (cfg : Config) : ℚ :=
  cfg.distanceThreshold * frameDimension cfg

/-- Lines 55-61 of MultiObjectTracker::update: if the pool is empty, seed
one filter per mass center, constructed with the configured dt and
acceleration-noise magnitude and a fresh id each. -/
def seedPool (cfg : Config) (st : MOTState) (massCenters : List PointQ) : MOTState :=
  if st.pool.isEmpty then
    { pool := massCenters.enum.map
        (fun kc => mkKalmanTracker (st.nextId + kc.1) kc.2 cfg.dt cfg.accelNoise),
      nextId := st.nextId + massCenters.length }
  else st

/-- The pairwise cost matrix of lines 80-84, with entries the squared
Euclidean distances from each filter's latest prediction to each mass
center (the source stores the distances themselves; only the assignment
the solver derives from the matrix is ever used, and the gate comparison
is performed on squares by normGtB). -/
def costMatrixSq (pool : List KalmanTracker) (massCenters : List PointQ) :
    List (List ℚ) :=
  pool.map (fun t => massCenters.map (fun c => distSq (latestPrediction t) c))

/-- Lines 90-102 of MultiObjectTracker::update: walk the assignment; a
pairing whose cost exceeds the gate threshold is cancelled (the filter
itself is untouched), and a filter the solver left unassigned receives
noUpdateThisFrame.  The loop runs over the assignment vector; filters
beyond its length are untouched. -/
def gateLoop (thrD : ℚ) (massCenters : List PointQ) :
    List KalmanTracker → List ℤ → List KalmanTracker × List ℤ
  | ts, [] => (ts, [])
  | [], _ :: _ => ([], [])
  | t :: ts, a :: as =>
    let rest := gateLoop thrD massCenters ts as
    if a ≠ -1 then
      if normGtB (distSq (latestPrediction t) (massCenters.getD a.toNat (0, 0))) thrD
      then (t :: rest.1, -1 :: rest.2)
      else (t :: rest.1, a :: rest.2)
    else (noUpdateOp t :: rest.1, a :: rest.2)

/-- Lines 104-117 of MultiObjectTracker::update: every filter left
unassigned whose latest prediction is contained in some detection's
bounding box receives gotUpdate. -/
def occlusionLoop (boundingRects : List Rect) :
    List KalmanTracker → List ℤ → List KalmanTracker
  | ts, [] => ts
  | [], _ :: _ => []
  | t :: ts, a :: as =>
    (if a = -1 ∧ boundingRects.any (fun r => r.containsB (latestPrediction t))
     then gotUpdateOp t else t) :: occlusionLoop boundingRects ts as

/-- Lines 119-126 of MultiObjectTracker::update: remove every filter whose
missed-frames count exceeds the threshold, erasing the assignment entry at
the same index so the two vectors stay parallel. -/
def evictLoop (thr : ℕ) :
    List KalmanTracker → List ℤ → List KalmanTracker × List ℤ
  | [], _ => ([], [])
  | t :: ts, [] =>
    let rest := evictLoop thr ts []
    if thr < t.missedFrames then rest else (t :: rest.1, rest.2)
  | t :: ts, a :: as =>
    let rest := evictLoop thr ts as
    if thr < t.missedFrames then rest else (t :: rest.1, a :: rest.2)

/-- Lines 128-136 of MultiObjectTracker::update: the indices of the mass
centers that appear in no assignment entry, in ascending order. -/
def unassignedCenters (a : List ℤ) (nC : ℕ) : List ℕ :=
  (List.range nC).filter (fun j => decide (¬ a.contains (j : ℤ)))

/-- Lines 138-141 of MultiObjectTracker::update: one new filter per
unassigned mass center, seeded at that centroid by the one-argument
KalmanTracker constructor, hence with the default dt and default
acceleration-noise magnitude (not the configured values). -/
def birthTrackers (nextId : ℕ) (massCenters : List PointQ) (a : List ℤ) :
    List KalmanTracker :=
  (unassignedCenters a massCenters.length).enum.map
    (fun kj => mkKalmanTracker (nextId + kj.1) (massCenters.getD kj.2 (0, 0))
      kalmanDefaultDt kalmanDefaultAccelNoise)

/-- The body of the filter-update loop of lines 144-153 for one filter:
predict, then either correct with the paired mass center followed by
gotUpdate, or self-correct when unassigned. -/
def correctStep (mu : MeasUpdate) (massCenters : List PointQ)
    (t : KalmanTracker) (a : ℤ) : KalmanTracker :=
  let t₁ := predictOp t
  if a ≠ -1 then gotUpdateOp (correctObs mu t₁ (massCenters.getD a.toNat (0, 0)))
  else correctSelf mu t₁

/-- Lines 143-153 of MultiObjectTracker::update: the filter-update loop,
which runs over the assignment vector only; filters beyond its length
(the filters born at lines 138-141) are untouched. -/
def correctLoop (mu : MeasUpdate) (massCenters : List PointQ) :
    List KalmanTracker → List ℤ → List KalmanTracker
  | ts, [] => ts
  | [], _ :: _ => []
  | t :: ts, a :: as => correctStep mu massCenters t a :: correctLoop mu massCenters ts as

/-- The raw assignment returned by the Hungarian solver on the cost matrix
of the (possibly just-seeded) pool against the mass centers comes from
hungarian.cpp, which is not under src/; the solver is the function
parameter solve, modelled from the spec only through the contract on its
output (stated as hypotheses of the theorems). -/
def assignRaw (solve : List (List ℚ) → List ℤ) (cfg : Config) (st : MOTState)
    (massCenters : List PointQ) : List ℤ :=
  solve (costMatrixSq (seedPool cfg st massCenters).pool massCenters)

/-- The gate pass (lines 90-102) applied to the seeded pool and the raw
assignment. -/
def gatePhase (solve : List (List ℚ) → List ℤ) (cfg : Config) (st : MOTState)
    (massCenters : List PointQ) : List KalmanTracker × List ℤ :=
  gateLoop (gateThreshold cfg) massCenters (seedPool cfg st massCenters).pool
    (assignRaw solve cfg st massCenters)

/-- The occlusion-tolerance pass (lines 104-117) applied after gating. -/
def occlusionPhase (solve : List (List ℚ) → List ℤ) (cfg : Config) (st : MOTState)
    (massCenters : List PointQ) (boundingRects : List Rect) : List KalmanTracker :=
  occlusionLoop boundingRects (gatePhase solve cfg st massCenters).1
    (gatePhase solve cfg st massCenters).2

/-- The eviction pass (lines 119-126) applied after occlusion tolerance. -/
def evictPhase (solve : List (List ℚ) → List ℤ) (cfg : Config) (st : MOTState)
    (massCenters : List PointQ) (boundingRects : List Rect) :
    List KalmanTracker × List ℤ :=
  evictLoop cfg.missedFramesThreshold
    (occlusionPhase solve cfg st massCenters boundingRects)
    (gatePhase solve cfg st massCenters).2

/-- The birth pass (lines 128-141): the filters created for the mass
centers left unassigned after eviction. -/
def birthPhase (solve : List (List ℚ) → List ℤ) (cfg : Config) (st : MOTState)
    (massCenters : List PointQ) (boundingRects : List Rect) : List KalmanTracker :=
  birthTrackers (seedPool cfg st massCenters).nextId massCenters
    (evictPhase solve cfg st massCenters boundingRects).2

/-- MultiObjectTracker::update.  The parameter solve is the Hungarian
assignment solver (hungarian.cpp is not under src/; modelled from the
spec only through the contract on its output, stated as hypotheses of the
theorems).  The parameter mu is the abstracted Kalman measurement update.

The empty-detections branch (lines 34-52) increments every filter's
missed-frames counter, evicts the filters past the threshold, and emits
the advanced prediction of every surviving filter with lifetime above the
lifetime threshold (predict is invoked only on those).  The main branch
seeds the pool if empty, solves the assignment on the cost matrix, gates,
applies occlusion tolerance, evicts, births filters for unassigned
centers, runs the filter-update loop over the assignment vector, and
emits the latest prediction of every filter with lifetime above the
lifetime threshold. -/
def update (mu : MeasUpdate) (solve : List (List ℚ) → List ℤ) (cfg : Config)
    (st : MOTState) (massCenters : List PointQ) (boundingRects : List Rect) :
    UpdateResult :=
  if massCenters.isEmpty then
    let survivors := (st.pool.map noUpdateOp).filter
      (fun t => decide (t.missedFrames ≤ cfg.missedFramesThreshold))
    { pool := survivors.map
        (fun t => if cfg.lifetimeThreshold < t.lifetime then predictOp t else t),
      nextId := st.nextId,
      outputPredictions :=
        (survivors.filter (fun t => decide (cfg.lifetimeThreshold < t.lifetime))).map
          (fun t => latestPrediction (predictOp t)) }
  else
    let ev := evictPhase solve cfg st massCenters boundingRects
    let newbies := birthPhase solve cfg st massCenters boundingRects
    let pool₅ := correctLoop mu massCenters (ev.1 ++ newbies) ev.2
    { pool := pool₅,
      nextId := (seedPool cfg st massCenters).nextId + newbies.length,
      outputPredictions :=
        (pool₅.filter (fun t => decide (cfg.lifetimeThreshold < t.lifetime))).map
          latestPrediction }

/-! ### Basic facts about the filter operations -/

theorem noUpdateOp_id (t : KalmanTracker) : (noUpdateOp t).id = t.id := rfl

theorem noUpdateOp_est (t : KalmanTracker) : (noUpdateOp t).est = t.est := rfl

theorem noUpdateOp_lifetime (t : KalmanTracker) : (noUpdateOp t).lifetime = t.lifetime := rfl

theorem noUpdateOp_missed (t : KalmanTracker) :
    (noUpdateOp t).missedFrames = t.missedFrames + 1 := rfl

theorem gotUpdateOp_est (t : KalmanTracker) : (gotUpdateOp t).est = t.est := rfl

theorem gotUpdateOp_id (t : KalmanTracker) : (gotUpdateOp t).id = t.id := rfl

theorem gotUpdateOp_missed (t : KalmanTracker) : (gotUpdateOp t).missedFrames = 0 := rfl

theorem predictOp_id (t : KalmanTracker) : (predictOp t).id = t.id := rfl

theorem predictOp_missed (t : KalmanTracker) :
    (predictOp t).missedFrames = t.missedFrames := rfl

theorem predictOp_predictCalls (t : KalmanTracker) :
    (predictOp t).predictCalls = t.predictCalls + 1 := rfl

/-- The motion parameters dt and accelNoise and the id are never changed by
any filter operation appearing in the update loop body. -/
theorem correctStep_params (mu : MeasUpdate) (c : List PointQ)
    (t : KalmanTracker) (x : ℤ) :
    (correctStep mu c t x).id = t.id ∧ (correctStep mu c t x).dt = t.dt ∧
    (correctStep mu c t x).accelNoise = t.accelNoise := by
  unfold correctStep correctObs correctSelf gotUpdateOp predictOp
  by_cases h : x = -1 <;> simp [h]

/-- The missed-frames counter after one body of the filter-update loop is
either reset to zero (assigned branch) or left unchanged (self-correction
branch). -/
theorem correctStep_missed (mu : MeasUpdate) (c : List PointQ)
    (t : KalmanTracker) (x : ℤ) :
    (correctStep mu c t x).missedFrames = 0 ∨
    (correctStep mu c t x).missedFrames = t.missedFrames := by
  unfold correctStep correctObs correctSelf gotUpdateOp predictOp
  by_cases h : x = -1 <;> simp [h]

/-- One body of the filter-update loop performs exactly one predict. -/
theorem correctStep_predictCalls (mu : MeasUpdate) (c : List PointQ)
    (t : KalmanTracker) (x : ℤ) :
    (correctStep mu c t x).predictCalls = t.predictCalls + 1 := by
  unfold correctStep correctObs correctSelf gotUpdateOp predictOp
  by_cases h : x = -1 <;> simp [h]

/-- In the unassigned branch the loop body is self-correction of the
advanced filter. -/
theorem correctStep_unassigned (mu : MeasUpdate) (c : List PointQ)
    (t : KalmanTracker) : correctStep mu c t (-1) = correctSelf mu (predictOp t) := by
  simp [correctStep]

/-! ### Shape lemmas for the loops of MultiObjectTracker::update -/

/-- The tracker component of one gate-loop body. -/
def gateTr (t : KalmanTracker) (x : ℤ) : KalmanTracker :=
  if x = -1 then noUpdateOp t else t

/-- The assignment component of one gate-loop body. -/
def gateAs (thrD : ℚ) (c : List PointQ) (t : KalmanTracker) (x : ℤ) : ℤ :=
  if x = -1 then x
  else if normGtB (distSq (latestPrediction t) (c.getD x.toNat (0, 0))) thrD then -1 else x

/-- One body of the occlusion-tolerance loop. -/
def occlTr (boundingRects : List Rect) (t : KalmanTracker) (x : ℤ) : KalmanTracker :=
  if x = -1 ∧ boundingRects.any (fun r => r.containsB (latestPrediction t))
  then gotUpdateOp t else t

theorem gateTr_est (t : KalmanTracker) (x : ℤ) : (gateTr t x).est = t.est := by
  unfold gateTr; split <;> rfl

theorem gateTr_id (t : KalmanTracker) (x : ℤ) : (gateTr t x).id = t.id := by
  unfold gateTr; split <;> rfl

theorem gateLoop_nil_assign (thrD : ℚ) (c : List PointQ) (ts : List KalmanTracker) :
    gateLoop thrD c ts [] = (ts, []) := by cases ts <;> rfl

theorem occlusionLoop_nil_assign (br : List Rect) (ts : List KalmanTracker) :
    occlusionLoop br ts [] = ts := by cases ts <;> rfl

theorem correctLoop_nil_assign (mu : MeasUpdate) (c : List PointQ)
    (ts : List KalmanTracker) : correctLoop mu c ts [] = ts := by cases ts <;> rfl

theorem gateLoop_eq_zipWith (thrD : ℚ) (c : List PointQ) :
    ∀ (ts : List KalmanTracker) (a : List ℤ), ts.length = a.length →
      gateLoop thrD c ts a =
        (List.zipWith gateTr ts a, List.zipWith (gateAs thrD c) ts a)
  | [], [], _ => rfl
  | t :: ts, a :: as, h => by
    have ih := gateLoop_eq_zipWith thrD c ts as (by simpa using h)
    simp only [gateLoop, ih, List.zipWith_cons_cons, gateTr, gateAs]
    split_ifs <;> simp_all

theorem occlusionLoop_eq_zipWith (br : List Rect) :
    ∀ (ts : List KalmanTracker) (a : List ℤ), ts.length = a.length →
      occlusionLoop br ts a = List.zipWith (occlTr br) ts a
  | [], [], _ => rfl
  | t :: ts, a :: as, h => by
    have ih := occlusionLoop_eq_zipWith br ts as (by simpa using h)
    simp only [occlusionLoop, ih]
    rfl

/-- Every filter kept by the eviction loop has missed frames within the
threshold. -/
theorem evictLoop_fst_missed (thr : ℕ) :
    ∀ (ts : List KalmanTracker) (a : List ℤ),
      ∀ t ∈ (evictLoop thr ts a).1, t.missedFrames ≤ thr
  | [], _, t, ht => by simp [evictLoop] at ht
  | t₀ :: ts, [], t, ht => by
    by_cases h : thr < t₀.missedFrames
    · simp only [evictLoop, if_pos h] at ht
      exact evictLoop_fst_missed thr ts [] t ht
    · simp only [evictLoop, if_neg h, List.mem_cons] at ht
      rcases ht with rfl | ht
      · omega
      · exact evictLoop_fst_missed thr ts [] t ht
  | t₀ :: ts, a :: as, t, ht => by
    by_cases h : thr < t₀.missedFrames
    · simp only [evictLoop, if_pos h] at ht
      exact evictLoop_fst_missed thr ts as t ht
    · simp only [evictLoop, if_neg h, List.mem_cons] at ht
      rcases ht with rfl | ht
      · omega
      · exact evictLoop_fst_missed thr ts as t ht

/-- Every filter kept by the eviction loop was in the input pool. -/
theorem evictLoop_fst_subset (thr : ℕ) :
    ∀ (ts : List KalmanTracker) (a : List ℤ),
      ∀ t ∈ (evictLoop thr ts a).1, t ∈ ts
  | [], _, t, ht => by simp [evictLoop] at ht
  | t₀ :: ts, [], t, ht => by
    by_cases h : thr < t₀.missedFrames
    · simp only [evictLoop, if_pos h] at ht
      exact List.mem_cons_of_mem _ (evictLoop_fst_subset thr ts [] t ht)
    · simp only [evictLoop, if_neg h, List.mem_cons] at ht
      rcases ht with rfl | ht
      · exact List.mem_cons_self _ _
      · exact List.mem_cons_of_mem _ (evictLoop_fst_subset thr ts [] t ht)
  | t₀ :: ts, a :: as, t, ht => by
    by_cases h : thr < t₀.missedFrames
    · simp only [evictLoop, if_pos h] at ht
      exact List.mem_cons_of_mem _ (evictLoop_fst_subset thr ts as t ht)
    · simp only [evictLoop, if_neg h, List.mem_cons] at ht
      rcases ht with rfl | ht
      · exact List.mem_cons_self _ _
      · exact List.mem_cons_of_mem _ (evictLoop_fst_subset thr ts as t ht)

/-- With parallel inputs the eviction loop is exactly the filter of the
zipped pool-assignment pairs by the survival test, componentwise. -/
theorem evictLoop_eq_filter (thr : ℕ) :
    ∀ (ts : List KalmanTracker) (a : List ℤ), ts.length = a.length →
      (evictLoop thr ts a).1 =
        ((ts.zip a).filter (fun p => decide (p.1.missedFrames ≤ thr))).map Prod.fst ∧
      (evictLoop thr ts a).2 =
        ((ts.zip a).filter (fun p => decide (p.1.missedFrames ≤ thr))).map Prod.snd
  | [], [], _ => by simp [evictLoop]
  | t₀ :: ts, a :: as, h => by
    have ih := evictLoop_eq_filter thr ts as (by simpa using h)
    by_cases hd : thr < t₀.missedFrames
    · have hdec : decide (t₀.missedFrames ≤ thr) = false := by
        simp; omega
      simp only [evictLoop, if_pos hd, List.zip_cons_cons, List.filter_cons, hdec]
      exact ih
    · have hdec : decide (t₀.missedFrames ≤ thr) = true := by
        simp; omega
      simp only [evictLoop, if_neg hd, List.zip_cons_cons, List.filter_cons, hdec]
      simp [ih.1, ih.2]

/-- The filter-update loop on a pool extending the assignment vector maps
the loop body over the parallel prefix and leaves the tail (the filters
born after eviction) untouched. -/
theorem correctLoop_append (mu : MeasUpdate) (c : List PointQ) :
    ∀ (ts q : List KalmanTracker) (a : List ℤ), ts.length = a.length →
      correctLoop mu c (ts ++ q) a = List.zipWith (correctStep mu c) ts a ++ q
  | [], q, [], _ => by cases q <;> rfl
  | t :: ts, q, a :: as, h => by
    have ih := correctLoop_append mu c ts q as (by simpa using h)
    simp only [List.cons_append, correctLoop, List.append_eq, ih,
      List.zipWith_cons_cons]

/-- Membership in the output of the filter-update loop: every output
filter is an input filter either untouched (beyond the assignment) or
transformed by one loop body. -/
theorem correctLoop_mem (mu : MeasUpdate) (c : List PointQ) :
    ∀ (ts : List KalmanTracker) (a : List ℤ),
      ∀ t' ∈ correctLoop mu c ts a,
        t' ∈ ts ∨ ∃ t ∈ ts, ∃ x, t' = correctStep mu c t x
  | ts, [], t', ht => by
    cases ts with
    | nil => simp [correctLoop] at ht
    | cons h l => exact Or.inl ht
  | [], _ :: _, t', ht => by simp [correctLoop] at ht
  | t :: ts, a :: as, t', ht => by
    simp only [correctLoop, List.mem_cons] at ht
    rcases ht with rfl | ht
    · exact Or.inr ⟨t, List.mem_cons_self _ _, a, rfl⟩
    · rcases correctLoop_mem mu c ts as t' ht with h | ⟨t₁, ht₁, x, hx⟩
      · exact Or.inl (List.mem_cons_of_mem _ h)
      · exact Or.inr ⟨t₁, List.mem_cons_of_mem _ ht₁, x, hx⟩

/-- Membership in the output of the occlusion loop: every output filter is
an input filter, possibly with gotUpdate applied. -/
theorem occlusionLoop_mem (br : List Rect) :
    ∀ (ts : List KalmanTracker) (a : List ℤ),
      ∀ t' ∈ occlusionLoop br ts a,
        ∃ t ∈ ts, t' = t ∨ t' = gotUpdateOp t
  | ts, [], t', ht => by
    cases ts with
    | nil => simp [occlusionLoop] at ht
    | cons h l => exact ⟨t', ht, Or.inl rfl⟩
  | [], _ :: _, t', ht => by simp [occlusionLoop] at ht
  | t :: ts, a :: as, t', ht => by
    simp only [occlusionLoop, List.mem_cons] at ht
    rcases ht with rfl | ht
    · refine ⟨t, List.mem_cons_self _ _, ?_⟩
      split <;> simp
    · rcases occlusionLoop_mem br ts as t' ht with ⟨t₁, ht₁, hcase⟩
      exact ⟨t₁, List.mem_cons_of_mem _ ht₁, hcase⟩

/-- Membership in the output of the gate loop: every output filter is an
input filter, possibly with noUpdateThisFrame applied. -/
theorem gateLoop_fst_mem (thrD : ℚ) (c : List PointQ) :
    ∀ (ts : List KalmanTracker) (a : List ℤ),
      ∀ t' ∈ (gateLoop thrD c ts a).1,
        ∃ t ∈ ts, t' = t ∨ t' = noUpdateOp t
  | ts, [], t', ht => by
    rw [gateLoop_nil_assign] at ht
    exact ⟨t', ht, Or.inl rfl⟩
  | [], _ :: _, t', ht => by simp [gateLoop] at ht
  | t :: ts, a :: as, t', ht => by
    have hcons : t' ∈ t :: (gateLoop thrD c ts as).1 ∨
        t' ∈ noUpdateOp t :: (gateLoop thrD c ts as).1 := by
      simp only [gateLoop] at ht
      split_ifs at ht with h1 h2
      · exact Or.inl ht
      · exact Or.inl ht
      · exact Or.inr ht
    have step : ∀ t₀ : KalmanTracker, t' ∈ (gateLoop thrD c ts as).1 →
        (∃ t₁ ∈ t₀ :: ts, t' = t₁ ∨ t' = noUpdateOp t₁) := by
      intro t₀ hm
      rcases gateLoop_fst_mem thrD c ts as t' hm with ⟨t₁, ht₁, hc⟩
      exact ⟨t₁, List.mem_cons_of_mem _ ht₁, hc⟩
    rcases hcons with hc | hc
    · rcases List.mem_cons.mp hc with hEq | hm
      · exact ⟨t, List.mem_cons_self _ _, Or.inl hEq⟩
      · exact step t hm
    · rcases List.mem_cons.mp hc with hEq | hm
      · exact ⟨t, List.mem_cons_self _ _, Or.inr hEq⟩
      · exact step t hm

/-! ### Generic list and fold helpers -/

theorem foldl_invariant_mem {α β : Type _} (f : β → α → β) (P : β → Prop) :
    ∀ (l : List α) (b : β), P b → (∀ acc x, x ∈ l → P acc → P (f acc x)) →
      P (l.foldl f b)
  | [], _, hb, _ => hb
  | x :: l, b, hb, hstep =>
    foldl_invariant_mem f P l (f b x) (hstep b x (List.mem_cons_self _ _) hb)
      (fun acc y hy h => hstep acc y (List.mem_cons_of_mem _ hy) h)

theorem getD_eq_getElem {α : Type _} (l : List α) (i : ℕ) (d : α)
    (h : i < l.length) : l.getD i d = l[i] := by
  rw [List.getD_eq_getElem?_getD, List.getElem?_eq_getElem h]
  rfl

theorem getD_zipWith {α β γ : Type _} (f : α → β → γ) (l : List α) :
    ∀ (r : List β) (i : ℕ) (d : γ) (da : α) (db : β),
      i < l.length → i < r.length →
      (List.zipWith f l r).getD i d = f (l.getD i da) (r.getD i db) := by
  induction l with
  | nil => intro r i d da db h1 h2; simp at h1
  | cons a l ih =>
    intro r i d da db h1 h2
    cases r with
    | nil => simp at h2
    | cons b r =>
      cases i with
      | zero => simp
      | succ i =>
        simp only [List.zipWith_cons_cons, List.getD_cons_succ]
        exact ih r i d da db (by simpa using h1) (by simpa using h2)

theorem getD_append_left {α : Type _} (l q : List α) (i : ℕ) (d : α)
    (h : i < l.length) : (l ++ q).getD i d = l.getD i d := by
  rw [getD_eq_getElem _ _ _ (by rw [List.length_append]; omega),
    getD_eq_getElem _ _ _ h]
  exact List.getElem_append_left h

theorem getD_append_right {α : Type _} (l q : List α) (i : ℕ) (d : α)
    (h : l.length ≤ i) (h2 : i < l.length + q.length) :
    (l ++ q).getD i d = q.getD (i - l.length) d := by
  rw [getD_eq_getElem _ _ _ (by rw [List.length_append]; omega),
    getD_eq_getElem _ _ _ (by omega)]
  exact List.getElem_append_right h

theorem zip_getElem_mem {α β : Type _} (l : List α) (r : List β) (i : ℕ)
    (h1 : i < l.length) (h2 : i < r.length) : (l[i], r[i]) ∈ l.zip r := by
  have hlen : i < (l.zip r).length := by
    rw [List.length_zip]
    omega
  have hz := @List.getElem_zip _ _ l r i hlen
  rw [← hz]
  exact List.getElem_mem hlen

/-! ### Union-find invariants (for the merge pass) -/

/-- The representative-map invariant: representatives are fixed points and
indices below n stay below n. -/
def UFInv (n : ℕ) (r : ℕ → ℕ) : Prop :=
  (∀ k, r (r k) = r k) ∧ (∀ k, k < n → r k < n)

theorem ufUnion_inv (n : ℕ) (r : ℕ → ℕ) (a b : ℕ) (hb : b < n)
    (h : UFInv n r) : UFInv n (ufUnion r a b) := by
  obtain ⟨hid, hrng⟩ := h
  constructor
  · intro k
    unfold ufUnion
    by_cases hk : r k = r a
    · rw [if_pos hk, hid b]
      by_cases hba : r b = r a
      · rw [if_pos hba, hba]
      · rw [if_neg hba]
    · rw [if_neg hk, hid k, if_neg hk]
  · intro k hk
    unfold ufUnion
    by_cases hka : r k = r a
    · rw [if_pos hka]; exact hrng b hb
    · rw [if_neg hka]; exact hrng k hk

theorem buildUF_inv (gate : ℕ → ℕ → Bool) (n : ℕ) : UFInv n (buildUF gate n) := by
  unfold buildUF
  apply foldl_invariant_mem _ (UFInv n)
  · exact ⟨fun _ => rfl, fun _ hk => hk⟩
  · intro acc i _ hacc
    apply foldl_invariant_mem _ (UFInv n) _ acc hacc
    intro acc' j hj hacc'
    split_ifs with hij
    · exact ufUnion_inv n acc' i j (List.mem_range.mp hj) hacc'
    · exact hacc'

/-- The representative key of every class produced by classesOf is itself a
member of that class. -/
theorem classesOf_key_mem (r : ℕ → ℕ) (n : ℕ) (h : UFInv n r) :
    ∀ p ∈ classesOf r n, p.1 ∈ p.2 := by
  intro p hp
  unfold classesOf at hp
  rcases List.mem_map.mp hp with ⟨v, hv, rfl⟩
  have hv' : v ∈ (List.range n).map r := List.mem_dedup.mp hv
  rcases List.mem_map.mp hv' with ⟨k, hk, hkv⟩
  have hkn : k < n := List.mem_range.mp hk
  have hvn : v < n := hkv ▸ h.2 k hkn
  have hrv : r v = v := by rw [← hkv, h.1 k]
  simp only [List.mem_filter, List.mem_range]
  exact ⟨hvn, by simp [hrv]⟩

/-! ### Facts about the size filter -/

/-- The truncated running maximum of the areas is nonnegative (the
accumulator starts at the int literal 0 and max never decreases below
it). -/
theorem maxAreaInt_nonneg (areas : List ℚ) : 0 ≤ maxAreaInt areas := by
  unfold maxAreaInt
  apply foldl_invariant_mem _ (fun z : ℤ => 0 ≤ z)
  · exact le_refl 0
  · intro acc a _ hacc
    have h1 : (0 : ℚ) ≤ max (acc : ℚ) a :=
      le_trans (by exact_mod_cast hacc) (le_max_left _ _)
    unfold cTrunc
    rw [if_neg (by push_neg; exact h1)]
    exact Int.le_floor.mpr (by exact_mod_cast h1)

/-- When every area is zero the truncated running maximum is zero. -/
theorem maxAreaInt_all_zero (areas : List ℚ) (h : ∀ a ∈ areas, a = 0) :
    maxAreaInt areas = 0 := by
  unfold maxAreaInt
  apply foldl_invariant_mem _ (fun z : ℤ => z = 0)
  · rfl
  · intro acc a ha hacc
    rw [hacc, h a ha]
    simp [cTrunc]

/-- cTrunc agrees with the floor on nonnegative rationals. -/
theorem cTrunc_nonneg (q : ℚ) (h : 0 ≤ q) : cTrunc q = ⌊q⌋ := by
  unfold cTrunc
  rw [if_neg (by push_neg; exact h)]

theorem cTrunc_nonneg_of_nonneg (q : ℚ) (h : 0 ≤ q) : 0 ≤ cTrunc q := by
  rw [cTrunc_nonneg q h]
  exact Int.le_floor.mpr (by exact_mod_cast h)

/-! ### Concrete instances used by the witnesses and counterexamples -/

/-- A concrete measurement update used for witnesses: snap the position to
the observation, keep the velocity. -/
def muSnap : MeasUpdate := fun s z => { pos := z, vel := s.vel }

/-- A concrete solver output for a single filter and single detection. -/
def solvePairOne : List (List ℚ) → List ℤ := fun _ => [0]

/-- The configuration of the spec's gate-rejection scenario: a 500 by 500
frame, distance fraction 1/10, lifetime threshold 3, missed-frames
threshold 5. -/
def cfgGate : Config :=
  { frameHeight := 500, frameWidth := 500, lifetimeThreshold := 3,
    distanceThreshold := 1 / 10, missedFramesThreshold := 5,
    dt := 1, accelNoise := 1 }

/-- The old track of the gate-rejection scenario, at position (10, 10)
with lifetime 5 and no missed frames. -/
def oldTrack : KalmanTracker :=
  { mkKalmanTracker 0 (10, 10) 1 1 with lifetime := 5 }

/-- The tracker state holding only the old track. -/
def stGate : MOTState := { pool := [oldTrack], nextId := 1 }

/-- The bounding box of the far detection at (400, 400). -/
def rectsGate : List Rect := [⟨390, 390, 20, 20⟩]

/-- A triangle of area 3 (vertices (0,0), (3,0), (0,2)). -/
def triArea3 : Contour := [(0, 0), (3, 0), (0, 2)]

/-- A triangle of area 3/2 (vertices (0,0), (3,0), (0,1)). -/
def triArea32 : Contour := [(0, 0), (3, 0), (0, 1)]

/-- A degenerate contour of three collinear points, with zero area. -/
def degenContour : Contour := [(0, 0), (1, 0), (2, 0)]

/-- A trivial bounding-box function standing in for the external OpenCV
polygon-approximation routine in concrete instances. -/
def boxStub : Contour → Rect := fun _ => default

/-- A 40 by 40 square with centroid (100, 100). -/
def sqLeft : Contour := [(80, 80), (120, 80), (120, 120), (80, 120)]

/-- A 40 by 40 square with centroid (110, 100). -/
def sqRight : Contour := [(90, 80), (130, 80), (130, 120), (90, 120)]

/-! ### C3 -/

/-- C3, counterexample.  The claim asserts that a zero-area contour
reaching the centroid-computation step is skipped.  In the code there is
no skip: getCentersAndBoundingBoxes produces a centroid entry for the
degenerate contour (whose m00 moment is zero), so the output has the same
length as the input instead of dropping the contour. -/
theorem degenerate_not_skipped :
    m00Q degenContour = 0 ∧
    (getCentersAndBoundingBoxes boxStub [degenContour]).1.length = 1 := by
  constructor
  · decide
  · rfl

/-- C3, amended.  A zero-area contour is dropped by the relative size
filter (for a nonnegative size fraction) before centroid computation,
because the filter keeps only contours whose area strictly exceeds a
nonnegative threshold.  However getCentersAndBoundingBoxes has no skip:
it emits exactly one centroid per input contour, so a zero-area contour
passed to it has the centroid formula evaluated with a zero divisor. -/
theorem degenerate_dropped_by_size_filter (frac : ℚ) (hf : 0 ≤ frac)
    (cs : List Contour) :
    (∀ c ∈ filterOutBadContours frac cs, contourAreaQ c ≠ 0) ∧
    (∀ (approxBox : Contour → Rect) (ds : List Contour),
      (getCentersAndBoundingBoxes approxBox ds).1.length = ds.length) := by
  constructor
  · intro c hc
    have hmem := List.mem_filter.mp hc
    have hlt : ((sizeThresholdInt frac (cs.map contourAreaQ) : ℤ) : ℚ) < contourAreaQ c := by
      simpa [filterOutBadContours] using hmem.2
    have hthr : (0 : ℤ) ≤ sizeThresholdInt frac (cs.map contourAreaQ) := by
      unfold sizeThresholdInt
      apply cTrunc_nonneg_of_nonneg
      have := maxAreaInt_nonneg (cs.map contourAreaQ)
      positivity
    intro h0
    rw [h0] at hlt
    have hneg : ((sizeThresholdInt frac (cs.map contourAreaQ) : ℤ) : ℚ) < 0 := hlt
    have hneg' : sizeThresholdInt frac (cs.map contourAreaQ) < 0 := by
      exact_mod_cast hneg
    omega
  · intro approxBox ds
    simp [getCentersAndBoundingBoxes]

/-- C3, witness: the size filter applied to the concrete two-triangle
list yields only contours of nonzero area. -/
theorem degenerate_dropped_witness :
    contourAreaQ triArea3 ≠ 0 :=
  (degenerate_dropped_by_size_filter (1 / 2) (by norm_num)
    [triArea3, triArea32]).1 triArea3 (by decide)

/-! ### C6 -/

/-- C6, counterexample.  With size fraction 1/2 and contour areas 3 and
3/2, the true relative threshold is 3/2, so the claim (retain iff area
strictly exceeds size fraction times the maximum area) says the smaller
triangle is removed; the code truncates the threshold to the int 1 and
retains it. -/
theorem size_filter_iff_counterexample :
    filterOutBadContours (1 / 2) [triArea3, triArea32] = [triArea3, triArea32] ∧
    ¬ ((1 / 2 : ℚ) * max (contourAreaQ triArea3) (contourAreaQ triArea32)
        < contourAreaQ triArea32) := by
  constructor
  · decide
  · decide

/-- C6, amended.  The size filter retains a contour exactly when its area
strictly exceeds the integer-truncated threshold cTrunc of (size fraction
times the integer-truncated running maximum of the areas), rather than
the exact product with the true maximum; in particular when every contour
has area zero the threshold is zero and no contour survives. -/
theorem size_filter_truncated_iff (frac : ℚ) (cs : List Contour) :
    (∀ c, c ∈ filterOutBadContours frac cs ↔
      c ∈ cs ∧
        ((cTrunc (frac * (maxAreaInt (cs.map contourAreaQ) : ℚ)) : ℤ) : ℚ)
          < contourAreaQ c) ∧
    ((∀ c ∈ cs, contourAreaQ c = 0) → filterOutBadContours frac cs = []) := by
  constructor
  · intro c
    constructor
    · intro hc
      have hmem := List.mem_filter.mp hc
      refine ⟨hmem.1, ?_⟩
      simpa [filterOutBadContours, sizeThresholdInt] using hmem.2
    · intro hc
      apply List.mem_filter.mpr
      refine ⟨hc.1, ?_⟩
      simpa [filterOutBadContours, sizeThresholdInt] using hc.2
  · intro hz
    have hareas : ∀ a ∈ cs.map contourAreaQ, a = 0 := by
      intro a ha
      rcases List.mem_map.mp ha with ⟨c, hc, rfl⟩
      exact hz c hc
    have hmax : maxAreaInt (cs.map contourAreaQ) = 0 := maxAreaInt_all_zero _ hareas
    unfold filterOutBadContours
    apply List.filter_eq_nil_iff.mpr
    intro c hc
    simp only [sizeThresholdInt, hmax]
    have harg : cTrunc (frac * ((0 : ℤ) : ℚ)) = 0 := by
      norm_num [cTrunc]
    have hzero : cTrunc (0 : ℚ) = 0 := by
      norm_num [cTrunc]
    simp [harg, hzero, hz c hc]

/-- C6, witness: every contour of the all-degenerate list is removed by
the size filter. -/
theorem size_filter_truncated_witness :
    filterOutBadContours (1 / 2) [degenContour] = [] :=
  (size_filter_truncated_iff (1 / 2) [degenContour]).2 (by decide)

/-! ### C7 -/

/-- C7: in the merge pass, every equivalence class of the disjoint-set
closure of the centroid-proximity gate of size greater than one is
replaced by the concatenation of all member point sequences (in ascending
index order), every class of size one contributes its (unique) member
contour unchanged, the merged contour list is exactly one contour per
class, and the pipeline recomputes centroids and bounding boxes on the
merged contour set afterwards. -/
theorem mergeContours_spec (mergeThr : ℚ) (contours : List Contour)
    (mc : List PointQ) (bb : List Rect) (frac : ℚ) (approxBox : Contour → Rect)
    (cs : List Contour) :
    (∀ p ∈ classesOf (buildUF (mergeGate mergeThr mc bb) contours.length)
        contours.length,
      (p.2.length = 1 → ∃ i, p.2 = [i] ∧ classContour contours p = contours.getD i []) ∧
      (1 < p.2.length →
        classContour contours p = (p.2.map (fun k => contours.getD k [])).flatten)) ∧
    mergeContours mergeThr contours mc bb =
      (classesOf (buildUF (mergeGate mergeThr mc bb) contours.length)
        contours.length).map (classContour contours) ∧
    (processContours frac mergeThr approxBox cs).2 =
      getCentersAndBoundingBoxes approxBox (processContours frac mergeThr approxBox cs).1 := by
  refine ⟨?_, rfl, rfl⟩
  intro p hp
  constructor
  · intro h1
    have hkey := classesOf_key_mem _ _ (buildUF_inv _ _) p hp
    obtain ⟨w, hw⟩ := List.length_eq_one.mp h1
    refine ⟨w, hw, ?_⟩
    have hkw : p.1 = w := by
      rw [hw] at hkey
      simpa using hkey
    simp [classContour, h1, hkw]
  · intro h1
    have hne : ¬ p.2.length = 1 := by omega
    simp [classContour, hne]

/-- C7, witness: on the spec's merge-gate scenario (two 40 by 40 squares
with centroids 10 apart and merge fraction 1/2) the single class of size
two is replaced by the concatenation of the two contours. -/
theorem mergeContours_spec_witness :
    classContour [sqLeft, sqRight] (1, [0, 1]) =
      (([0, 1] : List ℕ).map (fun k => [sqLeft, sqRight].getD k [])).flatten :=
  ((mergeContours_spec (1 / 2) [sqLeft, sqRight] [(100, 100), (110, 100)]
      [⟨80, 80, 40, 40⟩, ⟨90, 80, 40, 40⟩] 0 boxStub []).1
    (1, [0, 1]) (by decide)).2 (by decide)

/-! ### Pipeline bookkeeping lemmas -/

theorem birthTrackers_fields (nid : ℕ) (mc : List PointQ) (a : List ℤ) :
    ∀ t ∈ birthTrackers nid mc a,
      t.missedFrames = 0 ∧ t.predictCalls = 0 ∧
      t.dt = kalmanDefaultDt ∧ t.accelNoise = kalmanDefaultAccelNoise ∧
      nid ≤ t.id := by
  intro t ht
  rcases List.mem_map.mp ht with ⟨kj, _, rfl⟩
  exact ⟨rfl, rfl, rfl, rfl, Nat.le_add_right _ _⟩

/-- Every filter of a freshly seeded (previously empty) pool carries the
configured motion parameters and an id below the advanced counter. -/
theorem seedPool_fields (cfg : Config) (st : MOTState) (mc : List PointQ)
    (hemp : st.pool = []) :
    ∀ t ∈ (seedPool cfg st mc).pool,
      t.dt = cfg.dt ∧ t.accelNoise = cfg.accelNoise ∧
      t.id < st.nextId + mc.length := by
  intro t ht
  unfold seedPool at ht
  rw [hemp] at ht
  simp only [List.isEmpty_nil, if_pos] at ht
  rcases List.mem_map.mp ht with ⟨kc, hkc, rfl⟩
  obtain ⟨k, c⟩ := kc
  rcases List.mem_enum hkc with ⟨hlt, _⟩
  exact ⟨rfl, rfl, by simpa [mkKalmanTracker] using Nat.add_lt_add_left hlt st.nextId⟩

/-- Under the solver length contract, the update pool of the nonempty
branch is the zip of the filter-update body over the eviction survivors
and their assignment entries, followed by the untouched newborn filters,
with the two eviction outputs of equal length. -/
theorem update_pool_eq (mu : MeasUpdate) (solve : List (List ℚ) → List ℤ)
    (cfg : Config) (st : MOTState) (mc : List PointQ) (br : List Rect)
    (hne : mc ≠ [])
    (hlen : (assignRaw solve cfg st mc).length = (seedPool cfg st mc).pool.length) :
    (update mu solve cfg st mc br).pool =
      List.zipWith (correctStep mu mc) (evictPhase solve cfg st mc br).1
        (evictPhase solve cfg st mc br).2 ++ birthPhase solve cfg st mc br ∧
    (evictPhase solve cfg st mc br).1.length = (evictPhase solve cfg st mc br).2.length := by
  have hga := gateLoop_eq_zipWith (gateThreshold cfg) mc
    (seedPool cfg st mc).pool (assignRaw solve cfg st mc) hlen.symm
  have hga1 : (gatePhase solve cfg st mc).1.length = (gatePhase solve cfg st mc).2.length := by
    unfold gatePhase
    rw [hga]
    simp [List.length_zipWith]
  have hocc : (occlusionPhase solve cfg st mc br).length
      = (gatePhase solve cfg st mc).2.length := by
    unfold occlusionPhase
    rw [occlusionLoop_eq_zipWith br _ _ hga1]
    rw [List.length_zipWith]
    omega
  have hev := evictLoop_eq_filter cfg.missedFramesThreshold
    (occlusionPhase solve cfg st mc br) (gatePhase solve cfg st mc).2 hocc
  have hevlen : (evictPhase solve cfg st mc br).1.length
      = (evictPhase solve cfg st mc br).2.length := by
    unfold evictPhase
    rw [hev.1, hev.2]
    simp
  refine ⟨?_, hevlen⟩
  have hpool : (update mu solve cfg st mc br).pool =
      correctLoop mu mc
        ((evictPhase solve cfg st mc br).1 ++ birthPhase solve cfg st mc br)
        (evictPhase solve cfg st mc br).2 := by
    unfold update
    rw [if_neg (by simpa [List.isEmpty_iff] using hne)]
  rw [hpool, correctLoop_append mu mc _ _ _ hevlen]

/-! ### C1 -/

/-- C1: evaluation of update at the spec's gate-rejection scenario (track
at (10, 10), detection at (400, 400), 500 by 500 frame, distance fraction
1/10, solver pairing them).  The gate cancels the pairing (the post-gate
assignment is -1), a new filter (id 1) is born at the detection centroid,
but the old filter (id 0) ends the frame with missedFrames still 0: the
code never calls noUpdateThisFrame on a gated-out filter (it only records
its index in the dead kalmansWithoutCenters vector), contradicting the
claimed increment. -/
theorem gate_rejection_evaluation :
    (gatePhase solvePairOne cfgGate stGate [(400, 400)]).2 = [-1] ∧
    ((update muSnap solvePairOne cfgGate stGate [(400, 400)] rectsGate).pool.map
      (fun t => (t.id, t.missedFrames))) = [(0, 0), (1, 0)] ∧
    ((update muSnap solvePairOne cfgGate stGate [(400, 400)] rectsGate).pool.getD 1
      default).est.pos = (400, 400) ∧
    oldTrack.missedFrames = 0 := by
  refine ⟨by decide, by decide, by decide, rfl⟩

/-! ### C2 -/

/-- C2, counterexample.  In the gate-rejection run a filter newly created
during the call (id 1) is in the final pool with zero predict
invocations, refuting the claim that predict() is invoked exactly once on
every filter surviving the frame, including those newly created during
the same call. -/
theorem update_predict_counterexample :
    ((update muSnap solvePairOne cfgGate stGate [(400, 400)] rectsGate).pool.map
      (fun t => (t.id, t.predictCalls))) = [(0, 1), (1, 0)] := by decide

/-- C2, amended.  With a nonempty detection set (and the solver length
contract) predict() is invoked exactly once on every filter that survives
the eviction pass and predates the birth step, while the filters born for
unassigned detections in the same call are not predicted at all; in the
empty-detection branch predict() is invoked exactly once on each
surviving filter whose lifetime exceeds the lifetime threshold and not at
all on the other survivors. -/
theorem update_predict_once (mu : MeasUpdate) (solve : List (List ℚ) → List ℤ)
    (cfg : Config) (st : MOTState) (mc : List PointQ) (br : List Rect) :
    (mc = [] → ∀ t' ∈ (update mu solve cfg st mc br).pool,
      ∃ t ∈ st.pool,
        (cfg.lifetimeThreshold < t.lifetime ∧ t'.predictCalls = t.predictCalls + 1) ∨
        (¬ cfg.lifetimeThreshold < t.lifetime ∧ t'.predictCalls = t.predictCalls)) ∧
    (mc ≠ [] →
      (assignRaw solve cfg st mc).length = (seedPool cfg st mc).pool.length →
      (∀ i, i < (evictPhase solve cfg st mc br).1.length →
        ((update mu solve cfg st mc br).pool.getD i default).predictCalls
          = ((evictPhase solve cfg st mc br).1.getD i default).predictCalls + 1) ∧
      (∀ i, (evictPhase solve cfg st mc br).1.length ≤ i →
        i < (update mu solve cfg st mc br).pool.length →
        ((update mu solve cfg st mc br).pool.getD i default).predictCalls = 0)) := by
  constructor
  · intro hmc t' ht'
    subst hmc
    unfold update at ht'
    simp only [List.isEmpty_nil, if_pos] at ht'
    rcases List.mem_map.mp ht' with ⟨s, hs, rfl⟩
    rcases List.mem_filter.mp hs with ⟨hs', _⟩
    rcases List.mem_map.mp hs' with ⟨t, ht, rfl⟩
    refine ⟨t, ht, ?_⟩
    by_cases hv : cfg.lifetimeThreshold < t.lifetime
    · exact Or.inl ⟨hv, by simp [hv, predictOp, noUpdateOp]⟩
    · exact Or.inr ⟨hv, by simp [hv, noUpdateOp]⟩
  · intro hne hlen
    obtain ⟨hpool, hevlen⟩ := update_pool_eq mu solve cfg st mc br hne hlen
    have hzlen : (List.zipWith (correctStep mu mc)
        (evictPhase solve cfg st mc br).1 (evictPhase solve cfg st mc br).2).length
          = (evictPhase solve cfg st mc br).1.length := by
      rw [List.length_zipWith]
      omega
    constructor
    · intro i hi
      have hi2 : i < (evictPhase solve cfg st mc br).2.length := hevlen ▸ hi
      rw [hpool, getD_append_left _ _ _ _ (by omega),
        getD_zipWith _ _ _ _ _ default 0 hi hi2, correctStep_predictCalls]
    · intro i hlow hib
      have hib' : i < (evictPhase solve cfg st mc br).1.length
          + (birthPhase solve cfg st mc br).length := by
        rw [hpool, List.length_append, hzlen] at hib
        exact hib
      rw [hpool, getD_append_right _ _ _ _ (by omega) (by omega)]
      have hidx : i - (List.zipWith (correctStep mu mc)
          (evictPhase solve cfg st mc br).1 (evictPhase solve cfg st mc br).2).length
            < (birthPhase solve cfg st mc br).length := by
        omega
      rw [getD_eq_getElem _ _ _ hidx]
      exact ((birthTrackers_fields _ _ _) _ (List.getElem_mem hidx)).2.1

/-- C2, witness: instantiation of the amended theorem at the
gate-rejection scenario, where the single eviction survivor is predicted
exactly once. -/
theorem update_predict_once_witness :
    ((update muSnap solvePairOne cfgGate stGate [(400, 400)] rectsGate).pool.getD 0
        default).predictCalls
      = ((evictPhase solvePairOne cfgGate stGate [(400, 400)] rectsGate).1.getD 0
        default).predictCalls + 1 :=
  ((update_predict_once muSnap solvePairOne cfgGate stGate [(400, 400)] rectsGate).2
    (by decide) (by decide)).1 0 (by decide)

/-! ### C4 -/

/-- C4: after every update call each remaining filter has missed frames
at most the threshold (any filter past the threshold having been removed
during the call), and the eviction pass keeps the assignment vector
aligned with the surviving filters: on parallel inputs it produces
exactly the componentwise projections of the survival-filtered
pool-assignment pairs. -/
theorem update_missed_invariant (mu : MeasUpdate) (solve : List (List ℚ) → List ℤ)
    (cfg : Config) (st : MOTState) (mc : List PointQ) (br : List Rect)
    (pool : List KalmanTracker) (a : List ℤ) (hlen : pool.length = a.length) :
    (∀ t ∈ (update mu solve cfg st mc br).pool,
        t.missedFrames ≤ cfg.missedFramesThreshold) ∧
    (evictLoop cfg.missedFramesThreshold pool a).1 =
      ((pool.zip a).filter
        (fun p => decide (p.1.missedFrames ≤ cfg.missedFramesThreshold))).map Prod.fst ∧
    (evictLoop cfg.missedFramesThreshold pool a).2 =
      ((pool.zip a).filter
        (fun p => decide (p.1.missedFrames ≤ cfg.missedFramesThreshold))).map Prod.snd := by
  refine ⟨?_, (evictLoop_eq_filter _ pool a hlen).1, (evictLoop_eq_filter _ pool a hlen).2⟩
  intro t ht
  by_cases hmc : mc.isEmpty
  · unfold update at ht
    rw [if_pos hmc] at ht
    rcases List.mem_map.mp ht with ⟨s, hs, rfl⟩
    have hsm : s.missedFrames ≤ cfg.missedFramesThreshold := by
      have := (List.mem_filter.mp hs).2
      simpa using this
    by_cases hv : cfg.lifetimeThreshold < s.lifetime
    · simpa [hv, predictOp_missed] using hsm
    · simpa [hv] using hsm
  · unfold update at ht
    rw [if_neg hmc] at ht
    have hbase : ∀ s ∈ (evictPhase solve cfg st mc br).1 ++ birthPhase solve cfg st mc br,
        s.missedFrames ≤ cfg.missedFramesThreshold := by
      intro s hs
      rcases List.mem_append.mp hs with hs | hs
      · exact evictLoop_fst_missed _ _ _ s hs
      · have := (birthTrackers_fields _ _ _ s hs).1
        omega
    rcases correctLoop_mem mu mc _ _ t ht with hmem | ⟨s, hs, x, rfl⟩
    · exact hbase t hmem
    · rcases correctStep_missed mu mc s x with h0 | hsame
      · omega
      · rw [hsame]
        exact hbase s hs

/-- C4, witness: instantiation at the gate-rejection scenario for the
update part and at a one-element pool for the alignment part. -/
theorem update_missed_invariant_witness :
    (evictLoop cfgGate.missedFramesThreshold [oldTrack] [(0 : ℤ)]).1 =
      (([oldTrack].zip [(0 : ℤ)]).filter
        (fun p => decide (p.1.missedFrames ≤ cfgGate.missedFramesThreshold))).map Prod.fst :=
  (update_missed_invariant muSnap solvePairOne cfgGate stGate [(400, 400)] rectsGate
    [oldTrack] [(0 : ℤ)] (by decide)).2.1

/-! ### C5 -/

/-- C5: an update call with an empty detection list is independent of the
assignment solver (no cost matrix or assignment is computed); every
remaining filter is an input filter with its missed-frames counter
incremented by one and within the threshold; every input filter within
the threshold after the increment survives; the emitted predictions are
exactly the advanced predictions of the surviving filters with lifetime
above the lifetime threshold; and no new filters are created (the id
counter does not advance and every output filter comes from the input
pool). -/
theorem update_empty_detections (mu : MeasUpdate)
    (solve solve' : List (List ℚ) → List ℤ) (cfg : Config) (st : MOTState)
    (br : List Rect) :
    update mu solve cfg st [] br = update mu solve' cfg st [] br ∧
    (∀ t' ∈ (update mu solve cfg st [] br).pool, ∃ t ∈ st.pool,
      t'.id = t.id ∧ t'.missedFrames = t.missedFrames + 1 ∧
      t.missedFrames + 1 ≤ cfg.missedFramesThreshold) ∧
    (∀ t ∈ st.pool, t.missedFrames + 1 ≤ cfg.missedFramesThreshold →
      ∃ t' ∈ (update mu solve cfg st [] br).pool,
        t'.id = t.id ∧ t'.missedFrames = t.missedFrames + 1) ∧
    (∀ p, p ∈ (update mu solve cfg st [] br).outputPredictions ↔
      ∃ t ∈ st.pool, t.missedFrames + 1 ≤ cfg.missedFramesThreshold ∧
        cfg.lifetimeThreshold < t.lifetime ∧
        p = latestPrediction (predictOp (noUpdateOp t))) ∧
    (update mu solve cfg st [] br).nextId = st.nextId := by
  refine ⟨rfl, ?_, ?_, ?_, rfl⟩
  · intro t' ht'
    unfold update at ht'
    simp only [List.isEmpty_nil, if_pos] at ht'
    rcases List.mem_map.mp ht' with ⟨s, hs, rfl⟩
    rcases List.mem_filter.mp hs with ⟨hs', hsm⟩
    rcases List.mem_map.mp hs' with ⟨t, ht, rfl⟩
    refine ⟨t, ht, ?_, ?_, ?_⟩
    · by_cases hv : cfg.lifetimeThreshold < (noUpdateOp t).lifetime <;>
        simp [hv, predictOp_id, noUpdateOp_id]
    · by_cases hv : cfg.lifetimeThreshold < (noUpdateOp t).lifetime <;>
        simp [hv, predictOp_missed, noUpdateOp_missed]
    · have := of_decide_eq_true hsm
      simpa [noUpdateOp_missed] using this
  · intro t ht hthr
    refine ⟨if cfg.lifetimeThreshold < t.lifetime
        then predictOp (noUpdateOp t) else noUpdateOp t, ?_, ?_, ?_⟩
    · unfold update
      simp only [List.isEmpty_nil, if_pos]
      apply List.mem_map.mpr
      refine ⟨noUpdateOp t, ?_, ?_⟩
      · apply List.mem_filter.mpr
        refine ⟨List.mem_map.mpr ⟨t, ht, rfl⟩, ?_⟩
        simpa [noUpdateOp_missed] using hthr
      · by_cases hv : cfg.lifetimeThreshold < t.lifetime <;>
          simp [hv, noUpdateOp]
    · by_cases hv : cfg.lifetimeThreshold < t.lifetime <;>
        simp [hv, predictOp, noUpdateOp]
    · by_cases hv : cfg.lifetimeThreshold < t.lifetime <;>
        simp [hv, predictOp, noUpdateOp]
  · intro p
    unfold update
    simp only [List.isEmpty_nil, if_pos]
    constructor
    · intro hp
      rcases List.mem_map.mp hp with ⟨s, hs, rfl⟩
      rcases List.mem_filter.mp hs with ⟨hs', hvis⟩
      rcases List.mem_filter.mp hs' with ⟨hs'', hsm⟩
      rcases List.mem_map.mp hs'' with ⟨t, ht, rfl⟩
      refine ⟨t, ht, ?_, ?_, rfl⟩
      · have := of_decide_eq_true hsm
        simpa [noUpdateOp_missed] using this
      · have := of_decide_eq_true hvis
        simpa [noUpdateOp_lifetime] using this
    · rintro ⟨t, ht, hthr, hvis, rfl⟩
      apply List.mem_map.mpr
      refine ⟨noUpdateOp t, ?_, rfl⟩
      apply List.mem_filter.mpr
      constructor
      · apply List.mem_filter.mpr
        refine ⟨List.mem_map.mpr ⟨t, ht, rfl⟩, ?_⟩
        simpa [noUpdateOp_missed] using hthr
      · simpa [noUpdateOp_lifetime] using hvis

/-- C5, witness: with the one-track pool, an empty-detections update
leaves a filter with one missed frame and the same id. -/
theorem update_empty_detections_witness :
    ∃ t' ∈ (update muSnap solvePairOne cfgGate stGate [] []).pool,
      t'.id = oldTrack.id ∧ t'.missedFrames = oldTrack.missedFrames + 1 :=
  (update_empty_detections muSnap solvePairOne solvePairOne cfgGate stGate []).2.2.1
    oldTrack (by decide) (by decide)

theorem correctSelf_missed (mu : MeasUpdate) (t : KalmanTracker) :
    (correctSelf mu t).missedFrames = t.missedFrames := rfl

theorem correctSelf_id (mu : MeasUpdate) (t : KalmanTracker) :
    (correctSelf mu t).id = t.id := rfl

/-- Shared analysis of the occlusion-tolerance path: a filter unassigned
after gating whose latest prediction is contained in a detection's
bounding box receives gotUpdate, survives eviction at some index k still
paired with the assignment entry -1, and the frame-end filter at index k
is the self-corrected advance of that filter. -/
theorem occlusion_pipeline (mu : MeasUpdate) (solve : List (List ℚ) → List ℤ)
    (cfg : Config) (st : MOTState) (mc : List PointQ) (br : List Rect)
    (hne : mc ≠ [])
    (hlen : (assignRaw solve cfg st mc).length = (seedPool cfg st mc).pool.length)
    (i : ℕ) (hi : i < (seedPool cfg st mc).pool.length)
    (hug : (gatePhase solve cfg st mc).2.getD i 0 = -1)
    (hcont : br.any (fun r => r.containsB
      (latestPrediction ((seedPool cfg st mc).pool.getD i default))) = true) :
    ∃ k, k < (evictPhase solve cfg st mc br).1.length ∧
      (evictPhase solve cfg st mc br).2.getD k 0 = -1 ∧
      (evictPhase solve cfg st mc br).1.getD k default
        = gotUpdateOp ((gatePhase solve cfg st mc).1.getD i default) ∧
      (update mu solve cfg st mc br).pool.getD k default
        = correctStep mu mc
            (gotUpdateOp ((gatePhase solve cfg st mc).1.getD i default)) (-1) := by
  have hga := gateLoop_eq_zipWith (gateThreshold cfg) mc
    (seedPool cfg st mc).pool (assignRaw solve cfg st mc) hlen.symm
  have hga1len : (gatePhase solve cfg st mc).1.length = (seedPool cfg st mc).pool.length := by
    unfold gatePhase
    rw [hga]
    rw [List.length_zipWith]
    omega
  have hga2len : (gatePhase solve cfg st mc).2.length = (seedPool cfg st mc).pool.length := by
    unfold gatePhase
    rw [hga]
    rw [List.length_zipWith]
    omega
  have hi1 : i < (gatePhase solve cfg st mc).1.length := by omega
  have hi2 : i < (gatePhase solve cfg st mc).2.length := by omega
  -- the filter at index i keeps the prediction of the seeded filter
  have hest : latestPrediction ((gatePhase solve cfg st mc).1.getD i default)
      = latestPrediction ((seedPool cfg st mc).pool.getD i default) := by
    have : (gatePhase solve cfg st mc).1.getD i default
        = gateTr ((seedPool cfg st mc).pool.getD i default)
            ((assignRaw solve cfg st mc).getD i 0) := by
      unfold gatePhase
      rw [hga]
      exact getD_zipWith _ _ _ _ _ default 0 hi (by omega)
    rw [this]
    unfold latestPrediction
    rw [gateTr_est]
  -- the occlusion pass applies gotUpdate at index i
  have hocc : occlusionPhase solve cfg st mc br =
      List.zipWith (occlTr br) (gatePhase solve cfg st mc).1
        (gatePhase solve cfg st mc).2 := by
    unfold occlusionPhase
    exact occlusionLoop_eq_zipWith br _ _ (by omega)
  have hocclen : (occlusionPhase solve cfg st mc br).length
      = (seedPool cfg st mc).pool.length := by
    rw [hocc, List.length_zipWith]
    omega
  have hocci : (occlusionPhase solve cfg st mc br).getD i default
      = gotUpdateOp ((gatePhase solve cfg st mc).1.getD i default) := by
    rw [hocc, getD_zipWith _ _ _ _ _ default 0 hi1 hi2]
    unfold occlTr
    rw [if_pos]
    constructor
    · exact hug
    · rw [hest]
      exact hcont
  -- the pair survives eviction
  have hev := evictLoop_eq_filter cfg.missedFramesThreshold
    (occlusionPhase solve cfg st mc br) (gatePhase solve cfg st mc).2 (by omega)
  have hpairmem : ((occlusionPhase solve cfg st mc br).getD i default,
      (gatePhase solve cfg st mc).2.getD i 0)
        ∈ (occlusionPhase solve cfg st mc br).zip (gatePhase solve cfg st mc).2 := by
    rw [getD_eq_getElem _ _ _ (by omega), getD_eq_getElem _ _ _ hi2]
    exact zip_getElem_mem _ _ i (by omega) hi2
  have hfiltmem : ((occlusionPhase solve cfg st mc br).getD i default,
      (gatePhase solve cfg st mc).2.getD i 0)
        ∈ ((occlusionPhase solve cfg st mc br).zip (gatePhase solve cfg st mc).2).filter
          (fun p => decide (p.1.missedFrames ≤ cfg.missedFramesThreshold)) := by
    apply List.mem_filter.mpr
    refine ⟨hpairmem, ?_⟩
    rw [hocci, gotUpdateOp_missed]
    simp
  rcases List.mem_iff_getElem.mp hfiltmem with ⟨k, hk, hkeq⟩
  have hklen : k < (evictPhase solve cfg st mc br).1.length := by
    unfold evictPhase
    rw [hev.1, List.length_map]
    exact hk
  have hklen2 : k < (evictPhase solve cfg st mc br).2.length := by
    unfold evictPhase
    rw [hev.2, List.length_map]
    exact hk
  have hev1eq : (evictPhase solve cfg st mc br).1 =
      (((occlusionPhase solve cfg st mc br).zip (gatePhase solve cfg st mc).2).filter
        (fun p => decide (p.1.missedFrames ≤ cfg.missedFramesThreshold))).map Prod.fst := by
    unfold evictPhase
    exact hev.1
  have hev2eq : (evictPhase solve cfg st mc br).2 =
      (((occlusionPhase solve cfg st mc br).zip (gatePhase solve cfg st mc).2).filter
        (fun p => decide (p.1.missedFrames ≤ cfg.missedFramesThreshold))).map Prod.snd := by
    unfold evictPhase
    exact hev.2
  have hev1k : (evictPhase solve cfg st mc br).1.getD k default
      = gotUpdateOp ((gatePhase solve cfg st mc).1.getD i default) := by
    rw [hev1eq, getD_eq_getElem _ _ _ (by rw [List.length_map]; exact hk),
      List.getElem_map, hkeq, ← hocci]
  have hev2k : (evictPhase solve cfg st mc br).2.getD k 0 = -1 := by
    rw [hev2eq, getD_eq_getElem _ _ _ (by rw [List.length_map]; exact hk),
      List.getElem_map, hkeq]
    exact hug
  obtain ⟨hpool, hevlen⟩ := update_pool_eq mu solve cfg st mc br hne hlen
  refine ⟨k, hklen, hev2k, hev1k, ?_⟩
  rw [hpool, getD_append_left _ _ _ _ (by rw [List.length_zipWith]; omega),
    getD_zipWith _ _ _ _ _ default 0 hklen (by omega), hev1k]
  have : (evictPhase solve cfg st mc br).2.getD k 0 = -1 := hev2k
  rw [this]

/-! ### C8 -/

/-- C8: with a nonempty detection set, every filter left unassigned after
gating whose latest predicted point is contained in at least one
detection's bounding box receives gotUpdate, and at the end of that frame
a filter with its id is in the pool with missed-frames counter zero, even
though no detection is paired with it. -/
theorem occlusion_tolerance_missed_zero (mu : MeasUpdate)
    (solve : List (List ℚ) → List ℤ) (cfg : Config) (st : MOTState)
    (mc : List PointQ) (br : List Rect)
    (hne : mc ≠ [])
    (hlen : (assignRaw solve cfg st mc).length = (seedPool cfg st mc).pool.length)
    (i : ℕ) (hi : i < (seedPool cfg st mc).pool.length)
    (hug : (gatePhase solve cfg st mc).2.getD i 0 = -1)
    (hcont : br.any (fun r => r.containsB
      (latestPrediction ((seedPool cfg st mc).pool.getD i default))) = true) :
    ∃ t' ∈ (update mu solve cfg st mc br).pool,
      t'.id = ((seedPool cfg st mc).pool.getD i default).id ∧
      t'.missedFrames = 0 := by
  obtain ⟨k, hklen, hev2k, hev1k, hfin⟩ :=
    occlusion_pipeline mu solve cfg st mc br hne hlen i hi hug hcont
  obtain ⟨hpool, hevlen⟩ := update_pool_eq mu solve cfg st mc br hne hlen
  have hkpool : k < (update mu solve cfg st mc br).pool.length := by
    rw [hpool, List.length_append, List.length_zipWith]
    omega
  refine ⟨(update mu solve cfg st mc br).pool.getD k default, ?_, ?_, ?_⟩
  · rw [getD_eq_getElem _ _ _ hkpool]
    exact List.getElem_mem hkpool
  · rw [hfin]
    rw [(correctStep_params mu mc _ _).1, gotUpdateOp_id]
    -- the gate pass preserves the id of the filter at index i
    have hga := gateLoop_eq_zipWith (gateThreshold cfg) mc
      (seedPool cfg st mc).pool (assignRaw solve cfg st mc) hlen.symm
    have : (gatePhase solve cfg st mc).1.getD i default
        = gateTr ((seedPool cfg st mc).pool.getD i default)
            ((assignRaw solve cfg st mc).getD i 0) := by
      unfold gatePhase
      rw [hga]
      exact getD_zipWith _ _ _ _ _ default 0 hi (by omega)
    rw [this, gateTr_id]
  · rw [hfin, correctStep_unassigned, correctSelf_missed, predictOp_missed,
      gotUpdateOp_missed]

/-! ### C9 -/

/-- C9: a filter granted occlusion tolerance keeps assignment entry -1
through eviction, so the filter-update loop corrects it with its own
previous prediction through the no-observation correct (the frame-end
filter is exactly the self-corrected advance of the gotUpdate filter, for
every measurement update), and gotUpdate changes no part of the state
estimate. -/
theorem occlusion_tolerance_self_correct (mu : MeasUpdate)
    (solve : List (List ℚ) → List ℤ) (cfg : Config) (st : MOTState)
    (mc : List PointQ) (br : List Rect)
    (hne : mc ≠ [])
    (hlen : (assignRaw solve cfg st mc).length = (seedPool cfg st mc).pool.length)
    (i : ℕ) (hi : i < (seedPool cfg st mc).pool.length)
    (hug : (gatePhase solve cfg st mc).2.getD i 0 = -1)
    (hcont : br.any (fun r => r.containsB
      (latestPrediction ((seedPool cfg st mc).pool.getD i default))) = true) :
    ∃ k, k < (evictPhase solve cfg st mc br).1.length ∧
      (evictPhase solve cfg st mc br).2.getD k 0 = -1 ∧
      (update mu solve cfg st mc br).pool.getD k default
        = correctSelf mu (predictOp (gotUpdateOp
            ((gatePhase solve cfg st mc).1.getD i default))) ∧
      (∀ s : KalmanTracker, (gotUpdateOp s).est = s.est) := by
  obtain ⟨k, hklen, hev2k, hev1k, hfin⟩ :=
    occlusion_pipeline mu solve cfg st mc br hne hlen i hi hug hcont
  refine ⟨k, hklen, hev2k, ?_, fun s => gotUpdateOp_est s⟩
  rw [hfin, correctStep_unassigned]

/-! ### C10 -/

theorem seedPool_nextId_empty (cfg : Config) (st : MOTState) (mc : List PointQ)
    (hemp : st.pool = []) :
    (seedPool cfg st mc).nextId = st.nextId + mc.length := by
  unfold seedPool
  rw [hemp]
  simp

/-- Every eviction survivor of a run that started from an empty pool
carries the configured motion parameters and an id below the seeded-id
bound. -/
theorem evict_survivor_params (solve : List (List ℚ) → List ℤ) (cfg : Config)
    (st : MOTState) (mc : List PointQ) (br : List Rect) (hemp : st.pool = []) :
    ∀ s ∈ (evictPhase solve cfg st mc br).1,
      s.dt = cfg.dt ∧ s.accelNoise = cfg.accelNoise ∧
      s.id < st.nextId + mc.length := by
  intro s hs
  have hs2 := evictLoop_fst_subset _ _ _ s hs
  rcases occlusionLoop_mem br _ _ s hs2 with ⟨t, ht, hcase⟩
  rcases gateLoop_fst_mem _ _ _ _ t ht with ⟨u, hu, hcase2⟩
  have hu' := seedPool_fields cfg st mc hemp u hu
  rcases hcase with rfl | rfl <;> rcases hcase2 with rfl | rfl <;>
    simp [gotUpdateOp, noUpdateOp, hu'.1, hu'.2.1, hu'.2.2]

/-- C10: in a nonempty-detections update, every filter created by the
birth step (for a detection unassigned after gating and eviction) carries
the one-argument constructor's default dt and acceleration-noise
magnitude, whereas (when the pool was empty at entry) every frame-end
filter whose id is below the seeded-id bound carries the configured dt
and acceleration-noise magnitude; hence whenever the configured values
differ from the defaults the two birth paths produce filters with
different motion parameters. -/
theorem birth_paths_motion_params (mu : MeasUpdate)
    (solve : List (List ℚ) → List ℤ) (cfg : Config) (st : MOTState)
    (mc : List PointQ) (br : List Rect) (hne : mc ≠ []) :
    (∀ f ∈ birthPhase solve cfg st mc br,
      f.dt = kalmanDefaultDt ∧ f.accelNoise = kalmanDefaultAccelNoise) ∧
    (update mu solve cfg st mc br).pool =
      correctLoop mu mc
        ((evictPhase solve cfg st mc br).1 ++ birthPhase solve cfg st mc br)
        (evictPhase solve cfg st mc br).2 ∧
    (st.pool = [] → ∀ g ∈ (update mu solve cfg st mc br).pool,
      g.id < st.nextId + mc.length →
      g.dt = cfg.dt ∧ g.accelNoise = cfg.accelNoise) ∧
    ((cfg.dt, cfg.accelNoise) ≠ (kalmanDefaultDt, kalmanDefaultAccelNoise) →
      st.pool = [] →
      ∀ f ∈ birthPhase solve cfg st mc br,
        ∀ g ∈ (update mu solve cfg st mc br).pool,
          g.id < st.nextId + mc.length →
          (f.dt, f.accelNoise) ≠ (g.dt, g.accelNoise)) := by
  have hbirth : ∀ f ∈ birthPhase solve cfg st mc br,
      f.dt = kalmanDefaultDt ∧ f.accelNoise = kalmanDefaultAccelNoise := by
    intro f hf
    have := birthTrackers_fields _ _ _ f hf
    exact ⟨this.2.2.1, this.2.2.2.1⟩
  have hpool : (update mu solve cfg st mc br).pool =
      correctLoop mu mc
        ((evictPhase solve cfg st mc br).1 ++ birthPhase solve cfg st mc br)
        (evictPhase solve cfg st mc br).2 := by
    unfold update
    rw [if_neg (by simpa [List.isEmpty_iff] using hne)]
  have hmain : st.pool = [] → ∀ g ∈ (update mu solve cfg st mc br).pool,
      g.id < st.nextId + mc.length →
      g.dt = cfg.dt ∧ g.accelNoise = cfg.accelNoise := by
    intro hemp g hg hgid
    rw [hpool] at hg
    have hbase : ∀ s ∈ (evictPhase solve cfg st mc br).1 ++ birthPhase solve cfg st mc br,
        s.id < st.nextId + mc.length →
        s.dt = cfg.dt ∧ s.accelNoise = cfg.accelNoise := by
      intro s hs hsid
      rcases List.mem_append.mp hs with hs | hs
      · have := evict_survivor_params solve cfg st mc br hemp s hs
        exact ⟨this.1, this.2.1⟩
      · have := birthTrackers_fields _ _ _ s hs
        rw [seedPool_nextId_empty cfg st mc hemp] at this
        omega
    rcases correctLoop_mem mu mc _ _ g hg with hmem | ⟨s, hs, x, rfl⟩
    · exact hbase g hmem hgid
    · have hpar := correctStep_params mu mc s x
      have := hbase s hs (by rw [← hpar.1]; exact hgid)
      rw [hpar.2.1, hpar.2.2]
      exact this
  refine ⟨hbirth, hpool, hmain, ?_⟩
  intro hcfg hemp f hf g hg hgid
  have hfp := hbirth f hf
  have hgp := hmain hemp g hg hgid
  intro hcontra
  apply hcfg
  have h1 : f.dt = g.dt := congrArg Prod.fst hcontra
  have h2 : f.accelNoise = g.accelNoise := congrArg Prod.snd hcontra
  rw [Prod.mk.injEq]
  constructor
  · rw [← hgp.1, ← h1, hfp.1]
  · rw [← hgp.2, ← h2, hfp.2]

/-! ### Concrete instances for the occlusion and birth witnesses -/

/-- A solver output pairing filter 0 to detection 0 and leaving filter 1
unassigned. -/
def solveOccl : List (List ℚ) → List ℤ := fun _ => [0, -1]

/-- A filter sitting exactly on the detection centroid. -/
def tAt400 : KalmanTracker := mkKalmanTracker 0 (400, 400) 1 1

/-- A second filter just inside the detection's bounding box. -/
def tAt398 : KalmanTracker := mkKalmanTracker 1 (398, 398) 1 1

/-- The two-filter pool of the occlusion scenario. -/
def stOccl : MOTState := { pool := [tAt400, tAt398], nextId := 2 }

/-- A configuration whose dt differs from the KalmanTracker default. -/
def cfgBirth : Config := { cfgGate with dt := 2 }

/-- The empty starting pool. -/
def stEmpty : MOTState := { pool := [], nextId := 0 }

/-- A solver output sending the first seeded filter to the far detection
(so the gate cancels it) and leaving the second unassigned. -/
def solveBirth : List (List ℚ) → List ℤ := fun _ => [1, -1]

/-- The first filter born by the late birth step of the empty-pool birth
scenario. -/
def fNewBorn : KalmanTracker :=
  (birthPhase solveBirth cfgBirth stEmpty [(0, 0), (400, 400)] []).getD 0 default

/-- The first frame-end filter of the empty-pool birth scenario (a
processed seeded filter). -/
def gSeeded : KalmanTracker :=
  (update muSnap solveBirth cfgBirth stEmpty [(0, 0), (400, 400)] []).pool.getD 0 default

/-- C8, witness: in the two-filter one-detection scenario the unassigned
filter inside the detection's box ends the frame with missed frames
zero. -/
theorem occlusion_tolerance_missed_zero_witness :
    ∃ t' ∈ (update muSnap solveOccl cfgGate stOccl [(400, 400)] rectsGate).pool,
      t'.id = ((seedPool cfgGate stOccl [(400, 400)]).pool.getD 1 default).id ∧
      t'.missedFrames = 0 :=
  occlusion_tolerance_missed_zero muSnap solveOccl cfgGate stOccl [(400, 400)]
    rectsGate (by decide) (by decide) 1 (by decide) (by decide) (by decide)

/-- C9, witness: in the same scenario the occlusion-tolerated filter is
self-corrected with assignment entry still -1. -/
theorem occlusion_tolerance_self_correct_witness :
    ∃ k, k < (evictPhase solveOccl cfgGate stOccl [(400, 400)] rectsGate).1.length ∧
      (evictPhase solveOccl cfgGate stOccl [(400, 400)] rectsGate).2.getD k 0 = -1 ∧
      (update muSnap solveOccl cfgGate stOccl [(400, 400)] rectsGate).pool.getD k default
        = correctSelf muSnap (predictOp (gotUpdateOp
            ((gatePhase solveOccl cfgGate stOccl [(400, 400)]).1.getD 1 default))) ∧
      (∀ s : KalmanTracker, (gotUpdateOp s).est = s.est) :=
  occlusion_tolerance_self_correct muSnap solveOccl cfgGate stOccl [(400, 400)]
    rectsGate (by decide) (by decide) 1 (by decide) (by decide) (by decide)

/-- C10, witness: with configured dt 2 the late-born filter and the
seeded filter of the empty-pool scenario carry different motion
parameters. -/
theorem birth_paths_motion_params_witness :
    (fNewBorn.dt, fNewBorn.accelNoise) ≠ (gSeeded.dt, gSeeded.accelNoise) :=
  (birth_paths_motion_params muSnap solveBirth cfgBirth stEmpty
      [(0, 0), (400, 400)] [] (by decide)).2.2.2 (by decide) rfl
    fNewBorn (by decide) gSeeded (by decide) (by decide)

end ObjectTracker
